import Mathlib


namespace Iyad

/-! ## Client form-builder data model (client/src/pages/FormBuilder.tsx)

The source field `type` is a reserved word in Lean and is embedded as
`qtype`; the source field `question` (the prompt text) is embedded as
`questionText`.  `sectionId = none` models a missing or empty (falsy)
`sectionId`. -/

structure Question where
  questionId : String
  questionNo : Nat
  qtype : String
  questionText : String
  required : Bool
  sectionId : Option String
  options : Option (List String)
  scale : Option Nat
deriving Repr, DecidableEq

/-- A section of the form editor.  `order = none` models a missing `order`
field (the source reads it as `section.order || 0`). -/
structure Section where
  id : String
  title : String
  name : String
  order : Option Int
deriving Repr, DecidableEq

/-- The sort key used by `renumberAllQuestions`: `(a.order || 0)`. -/
def sectionKey (s : Section) : Int :=
  s.order.getD 0

/-- Stable insertion of a section into a list sorted by `sectionKey`
ascending; `sortSections` below is the stable sort
`[...sections].sort((a, b) => (a.order || 0) - (b.order || 0))` of
FormBuilder.tsx line 1327. -/
def insertByKey (s : Section) : List Section → List Section
  | [] => [s]
  | t :: ts =>
    if sectionKey s ≤ sectionKey t then s :: t :: ts else t :: insertByKey s ts

/-- Stable sort of the sections by their `order` key, ascending. -/
def sortSections : List Section → List Section
  | [] => []
  | s :: ss => insertByKey s (sortSections ss)

/-- `questionList.filter(q => q.sectionId === section.id || (!q.sectionId && section.id === 'default'))`
(FormBuilder.tsx lines 1331-1333). -/
def sectionQuestionsFor (questionList : List Question) (s : Section) : List Question :=
  questionList.filter fun q =>
    q.sectionId == some s.id || (q.sectionId.isNone && s.id == "default")

/-- The mutable state of one run of `renumberAllQuestions`: the list being
rewritten, the ids already renumbered (`processedQuestionIds`), and the
running counter `currentNumber`. -/
structure RenumberState where
  renumbered : List Question
  processed : List String
  current : Nat
deriving Repr

/-- One body execution of the two loops inside `renumberAllQuestions`
(FormBuilder.tsx lines 1336-1345 and 1350-1361): find the index of `qid`
in the rewritten list, and if it is found and not yet processed, overwrite
its `questionNo` with the counter and bump the counter. -/
def renumberStep (st : RenumberState) (qid : String) : RenumberState :=
  match st.renumbered.findIdx? (fun q => q.questionId == qid) with
  | none => st
  | some idx =>
    if st.processed.contains qid then st
    else
      match st.renumbered.get? idx with
      | none => st
      | some q =>
        ⟨st.renumbered.set idx { q with questionNo := st.current },
         qid :: st.processed, st.current + 1⟩

/-- `renumberAllQuestions` (FormBuilder.tsx lines 1319-1363): if sections
exist, walk them sorted stably by `order` ascending and renumber each
section's questions in their existing relative order with one counter;
then sweep `questionList` once more so that any question not processed in
the section phase (its `sectionId` matches no known section) is numbered
at the end. -/
def renumberAllQuestions (sections : List Section) (questionList : List Question) :
    List Question :=
  let st0 : RenumberState := ⟨questionList, [], 1⟩
  let st1 :=
    if sections.isEmpty then st0
    else
      (sortSections sections).foldl
        (fun st s =>
          (sectionQuestionsFor questionList s).foldl
            (fun st2 sq => renumberStep st2 sq.questionId) st)
        st0
  (questionList.foldl (fun st q => renumberStep st q.questionId) st1).renumbered

/-! ## Renumbering invariant and its preservation -/

/-- Forget the sequence number of a question (used to state that
renumbering changes nothing but the numbers). -/
def eraseNo (q : Question) : Question :=
  { q with questionNo := 0 }

/-- Invariant of the renumbering loops over the state: the list carries the
same questions (up to numbers) in the same positions, the processed ids
are distinct ids of the input, the counter is one past the number of
processed questions, and the processed questions carry exactly the numbers
`1 .. processed.length`. -/
def RenumberInv (qs : List Question) (st : RenumberState) : Prop :=
  st.renumbered.map eraseNo = qs.map eraseNo ∧
  st.processed.Nodup ∧
  st.processed ⊆ qs.map Question.questionId ∧
  st.current = st.processed.length + 1 ∧
  ((st.renumbered.filter fun q => st.processed.contains q.questionId).map
      Question.questionNo).Perm (List.range' 1 st.processed.length)

/-- A sample question used by concrete witnesses below. -/
def wq (i : String) (no : Nat) (sec : Option String) : Question :=
  ⟨i, no, "text", "", false, sec, none, none⟩

/-! ## C7: the agreement-scale ('sls') question invariant -/

def slsOptions : List String :=
  ["Strongly Agree", "Agree", "Disagree", "Strongly Disagree"]

def addQuestion (sections : List Section) (questions : List Question)
    (newId : String) (ty : Option String) (targetSectionId : Option String) :
    List Question :=
  let sectionId := targetSectionId.getD ((sections.head?.map Section.id).getD "default")
  let newQuestion : Question :=
    { questionId := newId
      questionNo := questions.length + 1
      qtype := ty.getD "text"
      questionText := ""
      required := ty == some "sls"
      sectionId := some sectionId
      options :=
        if ty == some "sls" then some slsOptions
        else if ty == some "multipleChoice" || ty == some "checkbox" ||
            ty == some "radio" || ty == some "select" then
          some ["Option 1", "Option 2"]
        else none
      scale := if ty == some "rating" then some 5 else none }
  renumberAllQuestions sections (questions ++ [newQuestion])

inductive QuestionFieldUpdate where
  | qtype (v : String)
  | required (v : Bool)
  | options (v : List String)
  | questionText (v : String)
  | scale (v : Nat)
deriving Repr, DecidableEq

def applyQuestionField (q : Question) : QuestionFieldUpdate → Question
  | .qtype v => { q with qtype := v }
  | .required v => { q with required := v }
  | .options v => { q with options := some v }
  | .questionText v => { q with questionText := v }
  | .scale v => { q with scale := some v }

def updateQuestion (questions : List Question) (id : String)
    (u : QuestionFieldUpdate) : List Question :=
  questions.map fun q =>
    if q.questionId == id then
      let upd1 := applyQuestionField q u
      let upd2 :=
        match u with
        | .qtype v =>
          if v == "sls" then { upd1 with required := true, options := some slsOptions }
          else upd1
        | _ => upd1
      match u with
      | .required _ => if q.qtype == "sls" then { upd2 with required := true } else upd2
      | _ => upd2
    else q

def slsInvariant (qs : List Question) : Prop :=
  ∀ q ∈ qs, q.qtype = "sls" → q.required = true ∧ q.options = some slsOptions

instance (qs : List Question) : Decidable (slsInvariant qs) := by
  unfold slsInvariant
  infer_instance

def slsQ : Question :=
  ⟨"q1", 1, "sls", "Agreement", true, some "s1", some slsOptions, none⟩

/-! ## Server-side Form model (shared/schema.ts, server/routes.ts)

A `Form` row of the `forms` table.  JSON snapshot columns are opaque
`String` payloads; `none` is SQL `NULL`.  Only the settings key the claims
need (`selectedRespondents`) is modelled. -/

structure FormSettings where
  selectedRespondents : Option (List String)
deriving Repr, DecidableEq

structure Form where
  id : String
  name : String
  description : Option String
  formType : String
  formUrl : Option String
  status : String
  createdBy : String
  settings : Option FormSettings
  questions : Option String
  sections : Option String
  previewQuestions : Option String
  previewSections : Option String
  publishedQuestions : Option String
  publishedSections : Option String
  lastSavedAt : Option Nat
  lastPublishedAt : Option Nat
  updatedAt : Nat
deriving Repr, DecidableEq

/-- A JSON request body for the form create/update routes; `none` means the
key is absent from the body. -/
structure UpdateFormBody where
  title : Option String
  description : Option String
  formType : Option String
  formUrl : Option String
  status : Option String
  createdBy : Option String
  settings : Option FormSettings
  questions : Option String
  sections : Option String
  previewQuestions : Option String
  previewSections : Option String
  publishedQuestions : Option String
  publishedSections : Option String
deriving Repr, DecidableEq

/-- A `Partial<InsertForm>` update object as handed to
`storage.updateForm`.  The outer `Option` is key presence; for the JSON
snapshot columns the inner `Option` is the value written (the routes write
`existingForm.questions`, which can be `NULL`, into preview columns). -/
structure FormUpdates where
  name : Option String
  description : Option String
  formType : Option String
  formUrl : Option String
  status : Option String
  createdBy : Option String
  settings : Option FormSettings
  questions : Option (Option String)
  sections : Option (Option String)
  previewQuestions : Option (Option String)
  previewSections : Option (Option String)
  publishedQuestions : Option (Option String)
  publishedSections : Option (Option String)
  lastSavedAt : Option Nat
  lastPublishedAt : Option Nat
deriving Repr, DecidableEq

def emptyFormUpdates : FormUpdates :=
  ⟨none, none, none, none, none, none, none, none, none, none, none, none, none,
   none, none⟩

/-- `const { title, questions, sections, status, ...rest } = req.body;
const mappedData = ('title' in req.body) ? { ...rest, name: title } : rest;`
(routes.ts lines 175-176): `title` is renamed to `name`, and `questions`,
`sections`, `status` are removed from the pass-through updates. -/
def mappedDataOf (body : UpdateFormBody) : FormUpdates :=
  { emptyFormUpdates with
    name := body.title
    description := body.description
    formType := body.formType
    formUrl := body.formUrl
    createdBy := body.createdBy
    settings := body.settings
    previewQuestions := body.previewQuestions.map some
    previewSections := body.previewSections.map some
    publishedQuestions := body.publishedQuestions.map some
    publishedSections := body.publishedSections.map some }

/-- `insertFormSchema.partial().omit({ createdBy: true }).parse(updates)`:
zod strips the `createdBy` key from the update object (object schemas
drop unrecognized keys). -/
def omitCreatedBy (u : FormUpdates) : FormUpdates :=
  { u with createdBy := none }

/-- `storage.updateForm` (storage.ts lines 169-176):
`db.update(forms).set({ ...updates, updatedAt: new Date() })` — every key
present in the updates object overwrites the column, every absent key
leaves it unchanged. -/
def applyFormUpdates (f : Form) (u : FormUpdates) (now : Nat) : Form :=
  { id := f.id
    name := u.name.getD f.name
    description := u.description <|> f.description
    formType := u.formType.getD f.formType
    formUrl := u.formUrl <|> f.formUrl
    status := u.status.getD f.status
    createdBy := u.createdBy.getD f.createdBy
    settings := u.settings <|> f.settings
    questions := u.questions.getD f.questions
    sections := u.sections.getD f.sections
    previewQuestions := u.previewQuestions.getD f.previewQuestions
    previewSections := u.previewSections.getD f.previewSections
    publishedQuestions := u.publishedQuestions.getD f.publishedQuestions
    publishedSections := u.publishedSections.getD f.publishedSections
    lastSavedAt := u.lastSavedAt <|> f.lastSavedAt
    lastPublishedAt := u.lastPublishedAt <|> f.lastPublishedAt
    updatedAt := now }

/-- `app.put('/api/forms/:id')` (routes.ts lines 162-224), after the
ownership check succeeded on `existing`.  `status === 'active'` selects the
publish branch, which copies `existingForm.previewQuestions || existingForm.questions`
(and the sections analogue) into the published columns; the save branch
writes the body's `questions`/`sections` (falling back to the stored ones)
and never touches `status`. -/
def putFormRoute (existing : Form) (body : UpdateFormBody) (now : Nat) : Form :=
  let mapped := mappedDataOf body
  if body.status == some "active" then
    applyFormUpdates existing (omitCreatedBy
      { mapped with
        status := some "active"
        publishedQuestions := some (existing.previewQuestions <|> existing.questions)
        publishedSections := some (existing.previewSections <|> existing.sections)
        lastPublishedAt := some now }) now
  else
    applyFormUpdates existing (omitCreatedBy
      { mapped with
        questions := some (body.questions <|> existing.questions)
        sections := some (body.sections <|> existing.sections)
        lastSavedAt := some now }) now

/-- `app.post('/api/forms/:id/prepare-preview')` (routes.ts lines 412-438),
after the ownership check: copies the working snapshot columns into the
preview columns and stamps `lastSavedAt`. -/
def preparePreviewRoute (existing : Form) (now : Nat) : Form :=
  applyFormUpdates existing (omitCreatedBy
    { emptyFormUpdates with
      previewQuestions := some existing.questions
      previewSections := some existing.sections
      lastSavedAt := some now }) now

/-- `app.post('/api/forms')` (routes.ts lines 107-136) composed with
`storage.createForm` / the column defaults of shared/schema.ts: the body is
spread into the insert payload (minus `title`, renamed to `name`), with
`createdBy` forced to the session user; a missing `name` fails zod
validation; absent `formType`/`status` take the column defaults
`"survey"` / `"draft"`. -/
def createFormRoute (body : UpdateFormBody) (userId : String) (newId : String)
    (now : Nat) : Except String Form :=
  match body.title with
  | none => Except.error "Invalid form data"
  | some t =>
    Except.ok
      { id := newId
        name := t
        description := body.description
        formType := body.formType.getD "survey"
        formUrl := body.formUrl
        status := body.status.getD "draft"
        createdBy := userId
        settings := body.settings
        questions := body.questions
        sections := body.sections
        previewQuestions := body.previewQuestions
        previewSections := body.previewSections
        publishedQuestions := body.publishedQuestions
        publishedSections := body.publishedSections
        lastSavedAt := none
        lastPublishedAt := none
        updatedAt := now }

def emptyBody : UpdateFormBody :=
  ⟨none, none, none, none, none, none, none, none, none, none, none, none, none⟩

/-- A form whose preview snapshot was prepared and whose working snapshot
has since diverged. -/
def sampleForm : Form :=
  { id := "f1", name := "F", description := none, formType := "survey"
    formUrl := some "f", status := "draft", createdBy := "u1", settings := none
    questions := some "[q-working]", sections := some "[s-working]"
    previewQuestions := some "[q-preview]", previewSections := some "[s-preview]"
    publishedQuestions := none, publishedSections := none
    lastSavedAt := none, lastPublishedAt := none, updatedAt := 0 }

def publishBody : UpdateFormBody :=
  { emptyBody with status := some "active" }

def activeCreateBody : UpdateFormBody :=
  { emptyBody with title := some "F", status := some "active" }

def saveBody : UpdateFormBody :=
  { emptyBody with questions := some "[q-new]", sections := some "[s-new]" }

def draftCreateBody : UpdateFormBody :=
  { emptyBody with title := some "G" }

/-! ## Student storage model (shared/schema.ts `studentsDB`, server/storage.ts)

An `InsertStudent` row: `none` means the key is absent from the object, so
`db.update(...).set(row)` leaves the column unchanged; `some v` overwrites
the column with `v` (the CSV parser only emits non-empty values, but the
model does not depend on that).  The `class` column is a reserved word in
Lean and is embedded as `class_`; `additionalData` is an association list.
Stored `Student` rows carry a synthetic numeric `id` (fresh ids are
allocated as the current table size). -/

structure InsertStudent where
  student_BC : Option String
  fullName : Option String
  dateOfBirth : Option String
  gender : Option String
  level : Option String
  class_ : Option String
  centre : Option String
  guardianName : Option String
  guardianEmail : Option String
  guardianPhone : Option String
  address : Option String
  emergencyContact : Option String
  emergencyPhone : Option String
  medicalInfo : Option String
  status : Option String
  additionalData : Option (List (String × String))
  createdBy : Option String
deriving Repr, DecidableEq

structure Student where
  id : Nat
  student_BC : Option String
  fullName : Option String
  dateOfBirth : Option String
  gender : Option String
  level : Option String
  class_ : Option String
  centre : Option String
  guardianName : Option String
  guardianEmail : Option String
  guardianPhone : Option String
  address : Option String
  emergencyContact : Option String
  emergencyPhone : Option String
  medicalInfo : Option String
  status : String
  additionalData : Option (List (String × String))
  createdBy : Option String
deriving Repr, DecidableEq

/-- `storage.createStudent`: insert with the `status` column defaulting to
`"active"` when the row does not supply it. -/
def newStudentRecord (id : Nat) (r : InsertStudent) : Student :=
  { id := id
    student_BC := r.student_BC
    fullName := r.fullName
    dateOfBirth := r.dateOfBirth
    gender := r.gender
    level := r.level
    class_ := r.class_
    centre := r.centre
    guardianName := r.guardianName
    guardianEmail := r.guardianEmail
    guardianPhone := r.guardianPhone
    address := r.address
    emergencyContact := r.emergencyContact
    emergencyPhone := r.emergencyPhone
    medicalInfo := r.medicalInfo
    status := r.status.getD "active"
    additionalData := r.additionalData
    createdBy := r.createdBy }

/-- `storage.updateStudent(id, updates)`: every key present in the row
overwrites the column, absent keys keep the stored value. -/
def applyStudentUpdate (s : Student) (r : InsertStudent) : Student :=
  { id := s.id
    student_BC := r.student_BC <|> s.student_BC
    fullName := r.fullName <|> s.fullName
    dateOfBirth := r.dateOfBirth <|> s.dateOfBirth
    gender := r.gender <|> s.gender
    level := r.level <|> s.level
    class_ := r.class_ <|> s.class_
    centre := r.centre <|> s.centre
    guardianName := r.guardianName <|> s.guardianName
    guardianEmail := r.guardianEmail <|> s.guardianEmail
    guardianPhone := r.guardianPhone <|> s.guardianPhone
    address := r.address <|> s.address
    emergencyContact := r.emergencyContact <|> s.emergencyContact
    emergencyPhone := r.emergencyPhone <|> s.emergencyPhone
    medicalInfo := r.medicalInfo <|> s.medicalInfo
    status := r.status.getD s.status
    additionalData := r.additionalData <|> s.additionalData
    createdBy := r.createdBy <|> s.createdBy }

/-- `storage.getStudentByStudentId` (storage.ts lines 380-383): first row
whose `student_BC` column equals the argument. -/
def getStudentByStudentId (db : List Student) (bc : String) : Option Student :=
  db.find? (fun s => s.student_BC == some bc)

/-- One iteration of the `bulkCreateStudents` loop body (storage.ts lines
403-421): look the row up by `student_BC` and update the matching record,
or create a new one. -/
def upsertStudent (db : List Student) (nextId : Nat) (r : InsertStudent) :
    List Student × Student :=
  match r.student_BC.bind (getStudentByStudentId db) with
  | some existing =>
    let s' := applyStudentUpdate existing r
    (db.map (fun t => if t.id == existing.id then s' else t), s')
  | none =>
    let s := newStudentRecord nextId r
    (db ++ [s], s)

/-- The `bulkCreateStudents` loop with an explicit failure oracle: `fail i`
models the i-th iteration's storage call throwing, which the source
catches and skips (`catch ... continue with other students`). -/
def bulkGo (fail : Nat → Bool) :
    Nat → List Student → List Student → List InsertStudent →
      List Student × List Student
  | _, db, acc, [] => (db, acc.reverse)
  | i, db, acc, r :: rs =>
    if fail i then bulkGo fail (i + 1) db acc rs
    else
      let p := upsertStudent db db.length r
      bulkGo fail (i + 1) p.1 (p.2 :: acc) rs

/-- `DatabaseStorage.bulkCreateStudents` (storage.ts lines 398-424):
returns the updated table and the list of committed records. -/
def bulkCreateStudents (fail : Nat → Bool) (db : List Student)
    (rows : List InsertStudent) : List Student × List Student :=
  bulkGo fail 0 db [] rows

structure BulkImportResponse where
  message : String
  students : List Student
deriving Repr, DecidableEq

def addCreatedBy (userId : String) (r : InsertStudent) : InsertStudent :=
  { r with createdBy := some userId }

/-- `app.post('/api/students/bulk')` (routes.ts lines 881-913): rejects an
empty batch, stamps `createdBy` on every row, commits through
`bulkCreateStudents`, and answers with a message carrying the committed
count plus the committed records.  (`insertStudentSchema.parse` is a
type-shape check and is the identity on well-typed rows.) -/
def studentsBulkRoute (fail : Nat → Bool) (userId : String) (db : List Student)
    (rows : List InsertStudent) : Except String (List Student × BulkImportResponse) :=
  if rows.isEmpty then Except.error "Invalid or empty student data array"
  else
    let withCreator := rows.map (addCreatedBy userId)
    let result := bulkCreateStudents fail db withCreator
    Except.ok (result.1,
      ⟨"Successfully imported " ++ toString result.2.length ++ " students",
       result.2⟩)

/-- The subsequence of rows whose iteration (counting from `i`) does not
fail. -/
def selectRowsFrom (fail : Nat → Bool) : Nat → List InsertStudent → List InsertStudent
  | _, [] => []
  | i, r :: rs =>
    if fail i then selectRowsFrom fail (i + 1) rs
    else r :: selectRowsFrom fail (i + 1) rs

def emptyInsertStudent : InsertStudent :=
  ⟨none, none, none, none, none, none, none, none, none, none, none, none, none,
   none, none, none, none⟩

def rowA : InsertStudent :=
  { emptyInsertStudent with
    student_BC := some "A1"
    fullName := some "Ann"
    status := some "active" }

def rowB : InsertStudent :=
  { emptyInsertStudent with
    student_BC := some "B2"
    fullName := some "Bob"
    status := some "active" }

/-- Well-formedness of the students table: distinct ids, all below the
table size (so a freshly allocated id is new). -/
def StudentDbWF (db : List Student) : Prop :=
  (db.map Student.id).Nodup ∧ ∀ s ∈ db, s.id < db.length

/-- The row's supplied values all end up in the stored record (in
particular every field the row supplies a non-empty value for). -/
def rowValuesWin (r : InsertStudent) (s : Student) : Prop :=
  (∀ v, r.student_BC = some v → s.student_BC = some v) ∧
  (∀ v, r.fullName = some v → s.fullName = some v) ∧
  (∀ v, r.dateOfBirth = some v → s.dateOfBirth = some v) ∧
  (∀ v, r.gender = some v → s.gender = some v) ∧
  (∀ v, r.level = some v → s.level = some v) ∧
  (∀ v, r.class_ = some v → s.class_ = some v) ∧
  (∀ v, r.centre = some v → s.centre = some v) ∧
  (∀ v, r.guardianName = some v → s.guardianName = some v) ∧
  (∀ v, r.guardianEmail = some v → s.guardianEmail = some v) ∧
  (∀ v, r.guardianPhone = some v → s.guardianPhone = some v) ∧
  (∀ v, r.address = some v → s.address = some v) ∧
  (∀ v, r.emergencyContact = some v → s.emergencyContact = some v) ∧
  (∀ v, r.emergencyPhone = some v → s.emergencyPhone = some v) ∧
  (∀ v, r.medicalInfo = some v → s.medicalInfo = some v) ∧
  (∀ v, r.status = some v → s.status = v) ∧
  (∀ v, r.additionalData = some v → s.additionalData = some v)

/-! ## Kernel-computable models of the JavaScript string helpers

`String.trim` / `String.toLower` from core are defined by well-founded
recursion and do not reduce inside the kernel, so concrete witnesses could
not be checked with them; these list-based equivalents compute. -/

/-- `String.prototype.trim()`: strip whitespace from both ends. -/
def jsTrim (s : String) : String :=
  String.mk (((s.data.dropWhile Char.isWhitespace).reverse.dropWhile
    Char.isWhitespace).reverse)

/-- `String.prototype.toLowerCase()` (over the ASCII range this code uses). -/
def jsToLower (s : String) : String :=
  String.mk (s.data.map Char.toLower)

/-! ## C6: the public identifier-lookup endpoint
(`app.post('/api/public/students/lookup-bc')`, routes.ts lines 769-845) -/

/-- The projection of a found student returned by the lookup endpoint. -/
structure LookupEntry where
  student_BC : Option String
  fullName : Option String
  level : Option String
  class_ : Option String
deriving Repr, DecidableEq

def lookupEntryOf (s : Student) : LookupEntry :=
  ⟨s.student_BC, s.fullName, s.level, s.class_⟩

/-- Lines 777-792: `selectedRespondents` / `formType` default to `[]` /
`'general'` and are only overwritten when a `formId` was sent, the form
exists and its `settings` column is non-null. -/
def lookupSettingsOf (forms : List Form) (formId : Option String) :
    List String × String :=
  match formId with
  | none => ([], "general")
  | some fid =>
    match forms.find? (fun f => f.id == fid) with
    | none => ([], "general")
    | some f =>
      match f.settings with
      | none => ([], "general")
      | some st =>
        ((st.selectedRespondents).getD [],
         if f.formType == "" then "general" else f.formType)

/-- The classification loop (lines 798-834), processing submitted
identifiers in order into `(foundStudents, notFoundBCNumbers,
notSelectedStudents)`. -/
def classifyBC (db : List Student) (formType : String) (selected : List String) :
    List String → List LookupEntry × List String × List LookupEntry
  | [] => ([], [], [])
  | bc :: rest =>
    let r := classifyBC db formType selected rest
    let trimmed := (jsTrim bc)
    if trimmed == "" then r
    else
      match getStudentByStudentId db trimmed with
      | some student =>
        if formType == "parents_survey" && decide (0 < selected.length) then
          if selected.contains trimmed then
            (lookupEntryOf student :: r.1, r.2.1, r.2.2)
          else
            (r.1, r.2.1, lookupEntryOf student :: r.2.2)
        else
          (lookupEntryOf student :: r.1, r.2.1, r.2.2)
      | none => (r.1, trimmed :: r.2.1, r.2.2)

structure LookupResponse where
  foundStudents : List LookupEntry
  notFoundBCNumbers : List String
  notSelectedStudents : Option (List LookupEntry)
deriving Repr, DecidableEq

/-- The whole route handler: look up settings, classify, and answer
(`notSelectedStudents` is omitted from the JSON when empty). -/
def lookupBCRoute (db : List Student) (forms : List Form)
    (bcNumbers : List String) (formId : Option String) : LookupResponse :=
  let st := lookupSettingsOf forms formId
  let r := classifyBC db st.2 st.1 bcNumbers
  ⟨r.1, r.2.1, if 0 < r.2.2.length then some r.2.2 else none⟩

/-! ## C8: reserved slugs on the public form route
(client router `App.tsx` — src/unnamed/part_004 lines 92-107 — composed with
`app.get('/api/public/forms/:url')`, routes.ts lines 296-348) -/

def RESERVED_SLUGS : List String :=
  ["apps", "settings", "dashboards", "preview", "api", "assets",
   "vite", "favicon.ico", "login", "logout", "auth"]

/-- The projection served by the public endpoint: published snapshot with
fallback to the working snapshot. -/
structure PublicFormView where
  id : String
  title : String
  formUrl : Option String
  questionsToUse : Option String
  sectionsToUse : Option String
deriving Repr, DecidableEq

inductive PublicFormResult where
  | notFound
  | served (v : PublicFormView)
deriving Repr, DecidableEq

/-- `storage.getFormByUrl` (storage.ts lines 164-167). -/
def getFormByUrl (forms : List Form) (url : String) : Option Form :=
  forms.find? (fun f => f.formUrl == some url)

/-- The server side `app.get('/api/public/forms/:url')`. -/
def publicFormsApi (forms : List Form) (url : String) : PublicFormResult :=
  match getFormByUrl forms url with
  | none => PublicFormResult.notFound
  | some f =>
    PublicFormResult.served
      ⟨f.id, f.name, f.formUrl,
       f.publishedQuestions <|> f.questions,
       f.publishedSections <|> f.sections⟩

/-- `PublicFormRoute` of the client router: a reserved slug renders
`NotFound` before any form is fetched; otherwise the public form page
fetches the form from the server endpoint. -/
def publicFormRoute (forms : List Form) (url : String) : PublicFormResult :=
  if RESERVED_SLUGS.contains (jsToLower url) then PublicFormResult.notFound
  else publicFormsApi forms url

/-! ## C9: the student CSV parser
(client/src/components/FormBuilder.tsx: `isKnownField` lines 883-904,
`parseDataRows` lines 932-1177, `validateStudentRow` lines 1184-1204) -/

/-- The `knownFields` list of `isKnownField` (lines 884-902), verbatim. -/
def knownFields : List String :=
  ["bc no", "bc_no", "bcno", "studentid", "student_id", "id",
   "firstname", "first_name", "lastname", "last_name",
   "fullname", "full_name", "name", "center", "centre", "learning_center",
   "learning center", "branch", "campus", "location", "center name",
   "centre name",
   "level", "std", "standard", "year", "year_level", "student_level",
   "class level", "grade level",
   "session", "timing", "time_slot", "time slot", "session time", "schedule",
   "batch",
   "admission date", "admission_date", "admissiondate",
   "start date", "start_date", "startdate",
   "end date", "end_date", "enddate",
   "birthdate", "birth_date", "date_of_birth", "dateofbirth", "dob",
   "enrolment status", "enrolment_status", "enrollment_status", "enrollment",
   "status",
   "email", "email_address", "phonenumber", "phone_number", "phone",
   "gender", "grade", "class_level", "class", "classroom", "section",
   "guardianname", "guardian_name", "parent_name",
   "guardianemail", "guardian_email", "parent_email",
   "guardianphone", "guardian_phone", "parent_phone",
   "address", "emergencycontact", "emergency_contact",
   "emergencyphone", "emergency_phone", "medicalinfo", "medical_info",
   "medical_information"]

def isKnownField (header : String) : Bool :=
  knownFields.contains (jsToLower header)

/-- JS object key assignment on the additional-data bag: replace the value
of an existing key, append a new key. -/
def setKey (m : List (String × String)) (k v : String) : List (String × String) :=
  if m.any (fun p => p.1 == k) then
    m.map (fun p => if p.1 == k then (k, v) else p)
  else m ++ [(k, v)]

def lookupKey (m : List (String × String)) (k : String) : Option String :=
  (m.find? (fun p => p.1 == k)).map Prod.snd

/-- `rowData.additionalData[k] = v` (with the `if (!rowData.additionalData)`
initialisation). -/
def adSet (d : InsertStudent) (k v : String) : InsertStudent :=
  { d with additionalData := some (setKey (d.additionalData.getD []) k v) }

/-- The `switch (normalizedHeader)` body of `parseDataRows`
(lines 972-1137), for one header/value pair.  Every case only acts on a
non-empty value; the additional-data bag is initialised on every
iteration. -/
def applyHeaderValue (d : InsertStudent) (header value : String) : InsertStudent :=
  let nh := jsToLower header
  let d0 : InsertStudent :=
    { d with additionalData := some (d.additionalData.getD []) }
  if ["bc no", "bc no.", "bc_no", "bc_no.", "bcno", "bcno.", "studentid",
      "student_id", "id"].contains nh then
    if value == "" then d0
    else adSet { d0 with student_BC := some value } "bcNo" value
  else if ["firstname", "first_name", "lastname", "last_name"].contains nh then
    if value == "" then d0 else adSet d0 header value
  else if ["center", "centre", "learning_center", "learning center", "branch",
      "campus", "location", "center name", "centre name"].contains nh then
    if value != "" && d0.centre.isNone then
      adSet { d0 with centre := some value } "center" value
    else d0
  else if ["level", "std", "standard", "year", "year_level", "student_level",
      "class level", "grade level"].contains nh then
    if value != "" && d0.level.isNone then { d0 with level := some value } else d0
  else if ["session", "timing", "time_slot", "time slot", "session time",
      "schedule", "batch"].contains nh then
    if value != "" && (lookupKey (d0.additionalData.getD []) "session").isNone then
      adSet (adSet d0 "session" value) "session_info" value
    else d0
  else if ["admission date", "admission_date", "admissiondate"].contains nh then
    if value == "" then d0 else adSet d0 "admissionDate" value
  else if ["start date", "start_date", "startdate"].contains nh then
    if value == "" then d0 else adSet d0 "startDate" value
  else if ["end date", "end_date", "enddate"].contains nh then
    if value == "" then d0 else adSet d0 "endDate" value
  else if ["birthdate", "birth_date", "date_of_birth", "dateofbirth",
      "dob"].contains nh then
    if value == "" then d0 else { d0 with dateOfBirth := some value }
  else if ["enrolment status", "enrolment_status", "enrollment_status",
      "enrollment", "status"].contains nh then
    if value == "" then d0
    else adSet { d0 with status := some (jsToLower value) } "enrollment" value
  else if ["fullname", "full_name", "name"].contains nh then
    if value == "" then d0 else { d0 with fullName := some value }
  else if ["email", "email_address", "phonenumber", "phone_number",
      "phone"].contains nh then
    if value == "" then d0 else adSet d0 header value
  else if nh == "gender" then
    if value == "" then d0 else { d0 with gender := some value }
  else if ["grade", "class_level"].contains nh then
    if value == "" then d0 else { d0 with level := some value }
  else if ["class", "classroom"].contains nh then
    if value == "" then d0 else { d0 with class_ := some value }
  else if nh == "section" then
    if value == "" then d0 else adSet d0 "section" value
  else if ["guardianname", "guardian_name", "parent_name"].contains nh then
    if value == "" then d0 else { d0 with guardianName := some value }
  else if ["guardianemail", "guardian_email", "parent_email"].contains nh then
    if value == "" then d0 else { d0 with guardianEmail := some value }
  else if ["guardianphone", "guardian_phone", "parent_phone"].contains nh then
    if value == "" then d0 else { d0 with guardianPhone := some value }
  else if nh == "address" then
    if value == "" then d0 else { d0 with address := some value }
  else if ["emergencycontact", "emergency_contact"].contains nh then
    if value == "" then d0 else { d0 with emergencyContact := some value }
  else if ["emergencyphone", "emergency_phone"].contains nh then
    if value == "" then d0 else { d0 with emergencyPhone := some value }
  else if ["medicalinfo", "medical_info", "medical_information"].contains nh then
    if value == "" then d0 else { d0 with medicalInfo := some value }
  else d0

/-- Parse one data row: the mapped-header pass over all columns, then the
unmapped-header pass (lines 1144-1150) that stores any non-empty value
under an unrecognized header verbatim in the additional-data bag. -/
def parseStudentRow (headers : List String) (row : List String) : InsertStudent :=
  let d1 := headers.enum.foldl
    (fun d p => applyHeaderValue d p.2 (jsTrim ((row.get? p.1).getD "")))
    emptyInsertStudent
  headers.enum.foldl
    (fun d p =>
      let value := jsTrim ((row.get? p.1).getD "")
      if value != "" && p.2 != "" && !(isKnownField (jsToLower p.2)) then
        adSet d p.2 value
      else d)
    d1

/-- Model of the guardian-email regex `/^[^\s@]+@[^\s@]+\.[^\s@]+$/`: one
`@` splitting two non-empty whitespace-free parts, the second containing an
interior dot. -/
def emailShapeOk (s : String) : Bool :=
  match s.splitOn "@" with
  | [l, r] =>
    let okPart (t : String) : Bool :=
      !t.data.isEmpty && t.data.all (fun c => !c.isWhitespace)
    let rc := r.data
    okPart l && okPart r &&
      (List.range rc.length).any
        (fun i => decide (0 < i) && decide (i + 1 < rc.length) &&
          rc.get? i == some '.')
  | _ => false

/-- `validateStudentRow` (lines 1184-1204): only `BC No` is required;
guardian email, when provided, must be regex-shaped. -/
def validateStudentRow (d : InsertStudent) : List String :=
  (if jsTrim (d.student_BC.getD "") == "" then ["BC No is required"] else []) ++
  (match d.guardianEmail with
   | some ge =>
     if jsTrim ge != "" && !(emailShapeOk (jsTrim ge)) then
       ["Invalid guardian email format"]
     else []
   | none => [])

structure ParsedStudentRow where
  index : Nat
  data : InsertStudent
  valid : Bool
  errors : List String
deriving Repr, DecidableEq

/-- `parseDataRows` (lines 932-1177): require some `BC No` header variant,
skip blank rows, parse and validate each remaining row (`index` counts
from 2: header row plus 1-basing). -/
def parseDataRows (headers : List String) (dataRows : List (List String)) :
    Except String (List ParsedStudentRow) :=
  let headerKeys := headers.map jsToLower
  let variants := ["bc no", "bc_no", "bcno", "bc no.", "bc_no", "bc_no.",
    "bcno", "bcno.", "student_id", "studentid", "id"]
  if variants.any (fun v => headerKeys.contains v) then
    Except.ok (dataRows.enum.filterMap (fun p =>
      if p.2.all (fun cell => jsTrim cell == "") then none
      else
        let d := parseStudentRow headers p.2
        let errs := validateStudentRow d
        some ⟨p.1 + 2, d, errs.isEmpty, errs⟩))
  else Except.error "Missing required headers: BC No"

/-! ## Theorems -/

/-! ## Generic list helpers used by the renumbering proofs -/

theorem findIdx?_split_from {α} {p : α → Bool} :
    ∀ (l : List α) (i j : Nat), List.findIdx? p l i = some j →
      ∃ l₁ a l₂, l = l₁ ++ a :: l₂ ∧ i + l₁.length = j ∧ p a = true := by
  intro l
  induction l with
  | nil => intro i j h; simp [List.findIdx?] at h
  | cons x xs ih =>
    intro i j h
    rw [List.findIdx?_cons] at h
    by_cases hp : p x = true
    · rw [if_pos hp] at h
      refine ⟨[], x, xs, rfl, ?_, hp⟩
      have hij : i = j := Option.some.inj h
      simp only [List.length_nil, Nat.add_zero]
      exact hij
    · rw [if_neg hp] at h
      obtain ⟨l₁, a, l₂, rfl, hlen, hpa⟩ := ih (i + 1) j h
      refine ⟨x :: l₁, a, l₂, rfl, ?_, hpa⟩
      simp only [List.length_cons]
      omega

theorem findIdx?_none_from {α} {p : α → Bool} :
    ∀ (l : List α) (i : Nat), List.findIdx? p l i = none →
      ∀ a ∈ l, p a = false := by
  intro l
  induction l with
  | nil => intro i _ a ha; cases ha
  | cons x xs ih =>
    intro i h a ha
    rw [List.findIdx?_cons] at h
    by_cases hp : p x = true
    · rw [if_pos hp] at h; cases h
    · rw [if_neg hp] at h
      cases ha with
      | head => simpa using hp
      | tail _ ha2 => exact ih (i + 1) h a ha2

theorem get?_append_length {α} {a : α} :
    ∀ (l₁ l₂ : List α), (l₁ ++ a :: l₂).get? l₁.length = some a := by
  intro l₁ l₂
  induction l₁ with
  | nil => rfl
  | cons x xs ih =>
    simpa only [List.cons_append, List.length_cons, List.get?_cons_succ] using ih

theorem set_append_length {α} {a b : α} :
    ∀ (l₁ l₂ : List α), (l₁ ++ a :: l₂).set l₁.length b = l₁ ++ b :: l₂ := by
  intro l₁ l₂
  induction l₁ with
  | nil => rfl
  | cons x xs ih => simp [ih]

theorem ids_of_eraseNo_eq {rs qs : List Question}
    (h : rs.map eraseNo = qs.map eraseNo) :
    rs.map Question.questionId = qs.map Question.questionId := by
  have h2 := congrArg (List.map Question.questionId) h
  simpa [List.map_map, Function.comp, eraseNo] using h2

theorem renumberStep_inv {qs : List Question} {st : RenumberState} {qid : String}
    (hids : (qs.map Question.questionId).Nodup) (h : RenumberInv qs st) :
    RenumberInv qs (renumberStep st qid) := by
  obtain ⟨hA, hB, hC, hD, hE⟩ := h
  unfold renumberStep
  cases hf : st.renumbered.findIdx? (fun q => q.questionId == qid) with
  | none => exact ⟨hA, hB, hC, hD, hE⟩
  | some idx =>
    by_cases hc : st.processed.contains qid
    · simp only [hc, if_true]
      exact ⟨hA, hB, hC, hD, hE⟩
    · simp only [hc, if_false, Bool.false_eq_true]
      obtain ⟨l₁, a, l₂, hsplit, hlen, hpa⟩ := findIdx?_split_from _ 0 idx hf
      have hidx : l₁.length = idx := by simpa using hlen
      have hget : st.renumbered.get? idx = some a := by
        rw [hsplit, ← hidx]; exact get?_append_length _ _
      rw [hget]
      have haqid : a.questionId = qid := by simpa using hpa
      have hqmem : qid ∉ st.processed := by
        intro hm; exact hc (List.elem_iff.mpr hm)
      have hrsids : st.renumbered.map Question.questionId = qs.map Question.questionId :=
        ids_of_eraseNo_eq hA
      have hrsnodup : (st.renumbered.map Question.questionId).Nodup := by
        rw [hrsids]; exact hids
      have hset : st.renumbered.set idx { a with questionNo := st.current } =
          l₁ ++ { a with questionNo := st.current } :: l₂ := by
        rw [hsplit, ← hidx]; exact set_append_length _ _
      constructor
      · -- frame: the eraseNo images are unchanged
        show (st.renumbered.set idx { a with questionNo := st.current }).map eraseNo
            = qs.map eraseNo
        rw [hset, ← hA, hsplit]
        simp [eraseNo]
      refine ⟨?_, ?_, ?_, ?_⟩
      · exact List.nodup_cons.mpr ⟨hqmem, hB⟩
      · intro x hx
        cases hx with
        | head =>
          have ham : a ∈ st.renumbered := by
            rw [hsplit]; exact List.mem_append_right _ (List.mem_cons_self _ _)
          have hmm : a.questionId ∈ st.renumbered.map Question.questionId :=
            List.mem_map_of_mem _ ham
          rw [hrsids] at hmm
          rwa [haqid] at hmm
        | tail _ hx2 => exact hC hx2
      · simp [hD]
      · -- the permutation component
        show ((((st.renumbered.set idx { a with questionNo := st.current }).filter
            (fun q => (qid :: st.processed).contains q.questionId)).map
            Question.questionNo).Perm (List.range' 1 (qid :: st.processed).length))
        rw [hset]
        rw [hsplit] at hrsnodup
        have hmid : (a.questionId ::
            (l₁.map Question.questionId ++ l₂.map Question.questionId)).Nodup := by
          have h2 := hrsnodup
          rw [List.map_append, List.map_cons] at h2
          exact List.nodup_middle.mp h2
        have hnotin : a.questionId ∉ l₁.map Question.questionId ++ l₂.map Question.questionId :=
          (List.nodup_cons.mp hmid).1
        have h₁ : ∀ b ∈ l₁, b.questionId ≠ qid := by
          intro b hb hbq
          exact hnotin (List.mem_append_left _
            (by rw [haqid, ← hbq]; exact List.mem_map_of_mem _ hb))
        have h₂ : ∀ b ∈ l₂, b.questionId ≠ qid := by
          intro b hb hbq
          exact hnotin (List.mem_append_right _
            (by rw [haqid, ← hbq]; exact List.mem_map_of_mem _ hb))
        have hpa2 : ((qid :: st.processed).contains
            (Question.questionId { a with questionNo := st.current })) = true := by
          simp [List.contains_cons, haqid]
        have hfilter1 : l₁.filter (fun q => (qid :: st.processed).contains q.questionId) =
            l₁.filter (fun q => st.processed.contains q.questionId) :=
          List.filter_congr (fun b hb => by simp [List.contains_cons, h₁ b hb])
        have hfilter2 : l₂.filter (fun q => (qid :: st.processed).contains q.questionId) =
            l₂.filter (fun q => st.processed.contains q.questionId) :=
          List.filter_congr (fun b hb => by simp [List.contains_cons, h₂ b hb])
        have hfa : (st.processed.contains a.questionId) = false := by
          simpa [haqid] using hc
        have hsplitfilter : st.renumbered.filter
            (fun q => st.processed.contains q.questionId) =
            l₁.filter (fun q => st.processed.contains q.questionId) ++
            l₂.filter (fun q => st.processed.contains q.questionId) := by
          rw [hsplit, List.filter_append, List.filter_cons, hfa]
          simp
        rw [List.filter_append, List.filter_cons, if_pos hpa2, hfilter1, hfilter2,
          List.map_append, List.map_cons]
        have hcur : Question.questionNo { a with questionNo := st.current } =
            st.processed.length + 1 := by
          simpa using hD
        rw [hcur]
        have hperm1 : ((l₁.filter (fun q => st.processed.contains q.questionId)).map
              Question.questionNo ++ (st.processed.length + 1) ::
              (l₂.filter (fun q => st.processed.contains q.questionId)).map
              Question.questionNo).Perm
            ((st.processed.length + 1) ::
              ((l₁.filter (fun q => st.processed.contains q.questionId)).map
                Question.questionNo ++
               (l₂.filter (fun q => st.processed.contains q.questionId)).map
                Question.questionNo)) := List.perm_middle
        have hjoin : (l₁.filter (fun q => st.processed.contains q.questionId)).map
              Question.questionNo ++
            (l₂.filter (fun q => st.processed.contains q.questionId)).map
              Question.questionNo =
            (st.renumbered.filter (fun q => st.processed.contains q.questionId)).map
              Question.questionNo := by
          rw [hsplitfilter, List.map_append]
        have hperm2 : ((l₁.filter (fun q => st.processed.contains q.questionId)).map
              Question.questionNo ++ (st.processed.length + 1) ::
              (l₂.filter (fun q => st.processed.contains q.questionId)).map
              Question.questionNo).Perm
            ((st.processed.length + 1) :: List.range' 1 st.processed.length) := by
          refine hperm1.trans ?_
          rw [hjoin]
          exact hE.cons _
        have hrange : List.range' 1 (st.processed.length + 1) =
            List.range' 1 st.processed.length ++ [st.processed.length + 1] := by
          have h0 := @List.range'_concat 1 1 st.processed.length
          rw [h0]
          congr 1
          simp [Nat.add_comm]
        have hfin : ((st.processed.length + 1) ::
            List.range' 1 st.processed.length).Perm
            (List.range' 1 (st.processed.length + 1)) := by
          rw [hrange]
          exact (List.perm_append_singleton _ _).symm
        simpa [List.length_cons] using hperm2.trans hfin

theorem renumberInv_foldl {α} (f : α → String) {qs : List Question}
    (hids : (qs.map Question.questionId).Nodup) :
    ∀ (L : List α) (st : RenumberState), RenumberInv qs st →
      RenumberInv qs (L.foldl (fun s x => renumberStep s (f x)) st) := by
  intro L
  induction L with
  | nil => intro st h; exact h
  | cons x xs ih =>
    intro st h
    exact ih _ (renumberStep_inv hids h)

theorem renumberStep_processed_mono (st : RenumberState) (qid : String) :
    st.processed ⊆ (renumberStep st qid).processed := by
  unfold renumberStep
  cases st.renumbered.findIdx? (fun q => q.questionId == qid) with
  | none => exact fun _ h => h
  | some idx =>
    by_cases hc : st.processed.contains qid
    · simp only [hc, if_true]
      exact fun _ h => h
    · simp only [hc, if_false, Bool.false_eq_true]
      cases st.renumbered.get? idx with
      | none => exact fun _ h => h
      | some q => exact fun y hy => List.mem_cons_of_mem _ hy

theorem foldl_processed_mono {α} (f : α → String) :
    ∀ (L : List α) (st : RenumberState),
      st.processed ⊆ (L.foldl (fun s x => renumberStep s (f x)) st).processed := by
  intro L
  induction L with
  | nil => intro st; exact fun _ h => h
  | cons x xs ih =>
    intro st
    exact fun y hy => ih _ (renumberStep_processed_mono st (f x) hy)

theorem renumberStep_mem_processed {st : RenumberState} {qid : String}
    (h : qid ∈ st.renumbered.map Question.questionId) :
    qid ∈ (renumberStep st qid).processed := by
  unfold renumberStep
  cases hf : st.renumbered.findIdx? (fun q => q.questionId == qid) with
  | none =>
    exfalso
    obtain ⟨q, hq, hqid⟩ := List.mem_map.mp h
    have hfalse := findIdx?_none_from _ 0 hf q hq
    rw [hqid] at hfalse
    simp at hfalse
  | some idx =>
    by_cases hc : st.processed.contains qid
    · simp only [hc, if_true]
      exact List.elem_iff.mp hc
    · simp only [hc, if_false, Bool.false_eq_true]
      obtain ⟨l₁, a, l₂, hsplit, hlen, hpa⟩ := findIdx?_split_from _ 0 idx hf
      have hidx : l₁.length = idx := by simpa using hlen
      have hget : st.renumbered.get? idx = some a := by
        rw [hsplit, ← hidx]; exact get?_append_length _ _
      rw [hget]
      exact List.mem_cons_self _ _

theorem foldl_all_processed {qs : List Question}
    (hids : (qs.map Question.questionId).Nodup) :
    ∀ (L : List Question) (st : RenumberState), RenumberInv qs st →
      (∀ q ∈ L, q.questionId ∈ qs.map Question.questionId) →
      ∀ q ∈ L, q.questionId ∈
        (L.foldl (fun s x => renumberStep s x.questionId) st).processed := by
  intro L
  induction L with
  | nil => intro st _ _ q hq; cases hq
  | cons x xs ih =>
    intro st hInv hL q hq
    have hxid : x.questionId ∈ st.renumbered.map Question.questionId := by
      rw [ids_of_eraseNo_eq hInv.1]
      exact hL x (List.mem_cons_self _ _)
    cases hq with
    | head =>
      exact foldl_processed_mono _ xs _ (renumberStep_mem_processed hxid)
    | tail _ hq2 =>
      exact ih _ (renumberStep_inv hids hInv)
        (fun r hr => hL r (List.mem_cons_of_mem _ hr)) q hq2

theorem renumberInv_foldl_sections {qs : List Question}
    (hids : (qs.map Question.questionId).Nodup) (qlist : List Question) :
    ∀ (S : List Section) (st : RenumberState), RenumberInv qs st →
      RenumberInv qs (S.foldl
        (fun st s => (sectionQuestionsFor qlist s).foldl
          (fun st2 sq => renumberStep st2 sq.questionId) st) st) := by
  intro S
  induction S with
  | nil => intro st h; exact h
  | cons x xs ih =>
    intro st h
    exact ih _ (renumberInv_foldl Question.questionId hids _ _ h)

theorem renumber_final_phase {qs : List Question} {st1 : RenumberState}
    (hids : (qs.map Question.questionId).Nodup) (hInv1 : RenumberInv qs st1) :
    (((qs.foldl (fun s x => renumberStep s x.questionId) st1).renumbered.map
        Question.questionNo).Perm (List.range' 1 qs.length)) ∧
    (qs.foldl (fun s x => renumberStep s x.questionId) st1).renumbered.map eraseNo
      = qs.map eraseNo := by
  have hall := foldl_all_processed hids qs st1 hInv1
    (fun q hq => List.mem_map_of_mem _ hq)
  obtain ⟨hA, hB, hC, hD, hE⟩ := renumberInv_foldl Question.questionId hids qs st1 hInv1
  have hsub : qs.map Question.questionId ⊆
      (qs.foldl (fun s x => renumberStep s x.questionId) st1).processed := by
    intro x hx
    obtain ⟨q, hq, rfl⟩ := List.mem_map.mp hx
    exact hall q hq
  have hlen1 := (hB.subperm hC).length_le
  have hlen2 := (hids.subperm hsub).length_le
  have hlen : (qs.foldl (fun s x => renumberStep s x.questionId) st1).processed.length
      = qs.length := by
    rw [List.length_map] at hlen1 hlen2
    omega
  have hfull : (qs.foldl (fun s x => renumberStep s x.questionId) st1).renumbered.filter
      (fun q => (qs.foldl (fun s x => renumberStep s x.questionId) st1).processed.contains
        q.questionId) =
      (qs.foldl (fun s x => renumberStep s x.questionId) st1).renumbered := by
    apply List.filter_eq_self.mpr
    intro q hq
    have hm : q.questionId ∈
        (qs.foldl (fun s x => renumberStep s x.questionId) st1).renumbered.map
          Question.questionId := List.mem_map_of_mem _ hq
    rw [ids_of_eraseNo_eq hA] at hm
    exact List.elem_iff.mpr (hsub hm)
  rw [hfull, hlen] at hE
  exact ⟨hE, hA⟩

/-- **C1.**  For every question list with pairwise-distinct `questionId`s
(the editor generates them from `Date.now()`) and every section list, the
output of `renumberAllQuestions` carries each input question unchanged in
its position except for `questionNo`, and the resulting `questionNo`
values are exactly a permutation of the contiguous range `1 .. n`, with no
gaps or duplicates.  Every editing operation of the form builder (add,
delete, copy, drag-reorder, move-to-section, and — through the
`useEffect` on `sections` — add/delete/reorder of sections and the initial
load of persisted data) stores a question list produced by this function,
whose very definition iterates the sections in ascending `order`, numbers
each section's questions in their existing relative order with a single
counter continuing across section boundaries, and appends (still
numbering) every question whose `sectionId` matches no known section. -/
theorem claim1_renumber_contiguous (sections : List Section) (qs : List Question)
    (hids : (qs.map Question.questionId).Nodup) :
    (((renumberAllQuestions sections qs).map Question.questionNo).Perm
      (List.range' 1 qs.length)) ∧
    (renumberAllQuestions sections qs).map eraseNo = qs.map eraseNo := by
  have hInv0 : RenumberInv qs ⟨qs, [], 1⟩ :=
    ⟨rfl, List.nodup_nil, List.nil_subset _, rfl, by simp⟩
  unfold renumberAllQuestions
  by_cases hs : sections.isEmpty
  · simp only [hs, if_true]
    exact renumber_final_phase hids hInv0
  · simp only [hs, if_false, Bool.false_eq_true]
    exact renumber_final_phase hids
      (renumberInv_foldl_sections hids qs _ _ hInv0)

/-- Witness for C1: a concrete form with two sections (one with order -1
sorted first), a stale numbering and an orphan question; the theorem
applies and the numbers are a permutation of 1..3. -/
theorem claim1_witness :
    (([wq "q1" 7 (some "s1"), wq "q2" 9 (some "s0"), wq "q3" 0 (some "zz")].map
        Question.questionId).Nodup) ∧
    (((renumberAllQuestions
      [⟨"s1", "", "", some 2⟩, ⟨"s0", "", "", some (-1)⟩]
      [wq "q1" 7 (some "s1"), wq "q2" 9 (some "s0"), wq "q3" 0 (some "zz")]).map
        Question.questionNo).Perm (List.range' 1 3)) :=
  ⟨by decide, (claim1_renumber_contiguous
      [⟨"s1", "", "", some 2⟩, ⟨"s0", "", "", some (-1)⟩]
      [wq "q1" 7 (some "s1"), wq "q2" 9 (some "s0"), wq "q3" 0 (some "zz")]
      (by decide)).1⟩

theorem slsInvariant_of_eraseNo_eq {rs qs : List Question}
    (h : rs.map eraseNo = qs.map eraseNo) (hq : slsInvariant qs) :
    slsInvariant rs := by
  intro q hmem htype
  have h1 : eraseNo q ∈ qs.map eraseNo := by
    rw [← h]; exact List.mem_map_of_mem _ hmem
  obtain ⟨q0, hq0, heq⟩ := List.mem_map.mp h1
  have ht : q0.qtype = q.qtype := by
    have h2 := congrArg Question.qtype heq
    simpa [eraseNo] using h2
  have hr : q0.required = q.required := by
    have h2 := congrArg Question.required heq
    simpa [eraseNo] using h2
  have ho : q0.options = q.options := by
    have h2 := congrArg Question.options heq
    simpa [eraseNo] using h2
  have := hq q0 hq0 (by rw [ht, htype])
  exact ⟨by rw [← hr]; exact this.1, by rw [← ho]; exact this.2⟩

theorem renumberStep_eraseNo (st : RenumberState) (qid : String) :
    (renumberStep st qid).renumbered.map eraseNo = st.renumbered.map eraseNo := by
  unfold renumberStep
  cases hf : st.renumbered.findIdx? (fun q => q.questionId == qid) with
  | none => rfl
  | some idx =>
    by_cases hc : st.processed.contains qid
    · simp only [hc, if_true]
    · simp only [hc, if_false, Bool.false_eq_true]
      obtain ⟨l₁, a, l₂, hsplit, hlen, hpa⟩ := findIdx?_split_from _ 0 idx hf
      have hidx : l₁.length = idx := by simpa using hlen
      have hget : st.renumbered.get? idx = some a := by
        rw [hsplit, ← hidx]; exact get?_append_length _ _
      rw [hget]
      show (st.renumbered.set idx { a with questionNo := st.current }).map eraseNo
          = st.renumbered.map eraseNo
      have hset : st.renumbered.set idx { a with questionNo := st.current } =
          l₁ ++ { a with questionNo := st.current } :: l₂ := by
        rw [hsplit, ← hidx]; exact set_append_length _ _
      rw [hset, hsplit]
      simp [eraseNo]

theorem foldl_eraseNo {α} (f : α → String) :
    ∀ (L : List α) (st : RenumberState),
      (L.foldl (fun s x => renumberStep s (f x)) st).renumbered.map eraseNo =
        st.renumbered.map eraseNo := by
  intro L
  induction L with
  | nil => intro st; rfl
  | cons x xs ih =>
    intro st
    simp only [List.foldl_cons]
    rw [ih]
    exact renumberStep_eraseNo st (f x)

/-- Unconditional frame property of the renumbering pass: only the
`questionNo` fields change, everything else (and the positions) stays. -/
theorem foldl_eraseNo_sections (qlist : List Question) :
    ∀ (S : List Section) (st : RenumberState),
      (S.foldl (fun st s => (sectionQuestionsFor qlist s).foldl
        (fun st2 sq => renumberStep st2 sq.questionId) st) st).renumbered.map eraseNo
        = st.renumbered.map eraseNo := by
  intro S
  induction S with
  | nil => intro st; rfl
  | cons x xs ih =>
    intro st
    simp only [List.foldl_cons]
    rw [ih]
    exact foldl_eraseNo Question.questionId _ _

/-- Unconditional frame property of the renumbering pass: only the
`questionNo` fields change, everything else (and the positions) stays. -/
theorem renumberAllQuestions_eraseNo (sections : List Section) (qs : List Question) :
    (renumberAllQuestions sections qs).map eraseNo = qs.map eraseNo := by
  unfold renumberAllQuestions
  by_cases hs : sections.isEmpty
  · simp only [hs, if_true]
    exact foldl_eraseNo Question.questionId qs _
  · simp only [hs, if_false, Bool.false_eq_true]
    rw [foldl_eraseNo Question.questionId qs _]
    exact foldl_eraseNo_sections qs _ _

theorem claim7_sls_invariant (sections : List Section) (qs : List Question)
    (newId : String) (ty : Option String) (target : Option String)
    (id txt : String) (t : String) (b : Bool) (opts : List String) (n : Nat)
    (h : slsInvariant qs) :
    slsInvariant (addQuestion sections qs newId ty target) ∧
    slsInvariant (updateQuestion qs id (.qtype t)) ∧
    slsInvariant (updateQuestion qs id (.required b)) ∧
    ((∀ q ∈ qs, q.questionId = id → q.qtype ≠ "sls") →
      slsInvariant (updateQuestion qs id (.options opts))) ∧
    slsInvariant (updateQuestion qs id (.questionText txt)) ∧
    slsInvariant (updateQuestion qs id (.scale n)) := by
  refine ⟨?_, ?_, ?_, ?_, ?_, ?_⟩
  · -- addQuestion
    unfold addQuestion
    apply slsInvariant_of_eraseNo_eq (renumberAllQuestions_eraseNo _ _)
    intro q hq htype
    rcases List.mem_append.mp hq with hq1 | hq2
    · exact h q hq1 htype
    · have hq3 : q = _ := List.mem_singleton.mp hq2
      subst hq3
      by_cases hsls : ty == some "sls"
      · simp only [hsls, if_true]
        exact ⟨trivial, trivial⟩
      · exfalso
        simp only at htype
        have : ty.getD "text" = "sls" := htype
        cases hty : ty with
        | none => rw [hty] at this; simp at this
        | some v =>
          rw [hty] at this
          simp at this
          rw [hty, this] at hsls
          simp at hsls
  · -- update type
    intro q' hq' htype
    obtain ⟨q, hq, rfl⟩ := List.mem_map.mp hq'
    by_cases hb : (q.questionId == id) = true
    · rw [if_pos hb] at htype ⊢
      by_cases ht : (t == "sls") = true
      · simp only [ht, if_true]
        exact ⟨trivial, trivial⟩
      · simp only [ht, if_false, Bool.false_eq_true] at htype ⊢
        exfalso
        have : t = "sls" := htype
        rw [this] at ht
        simp at ht
    · rw [if_neg hb] at htype ⊢
      exact h q hq htype
  · -- update required
    intro q' hq' htype
    obtain ⟨q, hq, rfl⟩ := List.mem_map.mp hq'
    by_cases hb : (q.questionId == id) = true
    · rw [if_pos hb] at htype ⊢
      by_cases ht : (q.qtype == "sls") = true
      · simp only [ht, if_true]
        exact ⟨trivial, (h q hq (by simpa using ht)).2⟩
      · simp only [ht, if_false, Bool.false_eq_true] at htype ⊢
        exfalso
        have : q.qtype = "sls" := htype
        rw [this] at ht
        simp at ht
    · rw [if_neg hb] at htype ⊢
      exact h q hq htype
  · -- update options, only invocable when the target question is not sls
    intro hguard q' hq' htype
    obtain ⟨q, hq, rfl⟩ := List.mem_map.mp hq'
    by_cases hb : (q.questionId == id) = true
    · rw [if_pos hb] at htype ⊢
      exfalso
      have hqt : q.qtype = "sls" := htype
      exact hguard q hq (by simpa using hb) hqt
    · rw [if_neg hb] at htype ⊢
      exact h q hq htype
  · -- update question text
    intro q' hq' htype
    obtain ⟨q, hq, rfl⟩ := List.mem_map.mp hq'
    by_cases hb : (q.questionId == id) = true
    · rw [if_pos hb] at htype ⊢
      exact h q hq htype
    · rw [if_neg hb] at htype ⊢
      exact h q hq htype
  · -- update rating scale
    intro q' hq' htype
    obtain ⟨q, hq, rfl⟩ := List.mem_map.mp hq'
    by_cases hb : (q.questionId == id) = true
    · rw [if_pos hb] at htype ⊢
      exact h q hq htype
    · rw [if_neg hb] at htype ⊢
      exact h q hq htype

/-- Witness for C7: toggling `required` off on a concrete sls question
leaves the invariant intact. -/
theorem claim7_witness :
    slsInvariant [slsQ, wq "q2" 2 (some "s1")] ∧
    slsInvariant (updateQuestion [slsQ, wq "q2" 2 (some "s1")] "q1"
      (QuestionFieldUpdate.required false)) :=
  ⟨by decide, (claim7_sls_invariant [] [slsQ, wq "q2" 2 (some "s1")] "q9" none none
      "q1" "" "" false [] 0 (by decide)).2.2.1⟩

theorem claim2_publish_copies_preview (existing : Form) (body : UpdateFormBody)
    (now : Nat) (hpub : body.status = some "active") :
    ((existing.previewQuestions.isSome ∧ existing.previewSections.isSome) →
      (putFormRoute existing body now).publishedQuestions = existing.previewQuestions ∧
      (putFormRoute existing body now).publishedSections = existing.previewSections) ∧
    ((existing.previewQuestions = none ∧ existing.previewSections = none) →
      (putFormRoute existing body now).publishedQuestions = existing.questions ∧
      (putFormRoute existing body now).publishedSections = existing.sections) := by
  have hb : (body.status == some "active") = true := by simp [hpub]
  constructor
  · rintro ⟨h1, h2⟩
    unfold putFormRoute
    rw [if_pos hb]
    constructor
    · show (existing.previewQuestions <|> existing.questions) = existing.previewQuestions
      cases hq : existing.previewQuestions with
      | none => rw [hq] at h1; simp at h1
      | some v => rfl
    · show (existing.previewSections <|> existing.sections) = existing.previewSections
      cases hq : existing.previewSections with
      | none => rw [hq] at h2; simp at h2
      | some v => rfl
  · rintro ⟨h1, h2⟩
    unfold putFormRoute
    rw [if_pos hb]
    constructor
    · show (existing.previewQuestions <|> existing.questions) = existing.questions
      rw [h1]
      rfl
    · show (existing.previewSections <|> existing.sections) = existing.sections
      rw [h2]
      rfl

theorem claim2_witness :
    sampleForm.previewQuestions.isSome = true ∧
    sampleForm.previewSections.isSome = true ∧
    (putFormRoute sampleForm publishBody 5).publishedQuestions = some "[q-preview]" ∧
    (putFormRoute sampleForm publishBody 5).publishedSections = some "[s-preview]" := by
  have h := (claim2_publish_copies_preview sampleForm publishBody 5 rfl).1
    ⟨by decide, by decide⟩
  exact ⟨by decide, by decide, h.1.trans (by decide), h.2.trans (by decide)⟩

theorem claim10_createdBy_preserved (existing : Form) (body : UpdateFormBody)
    (now : Nat) :
    (putFormRoute existing body now).createdBy = existing.createdBy ∧
    (preparePreviewRoute existing now).createdBy = existing.createdBy := by
  constructor
  · unfold putFormRoute
    by_cases hb : (body.status == some "active") = true
    · rw [if_pos hb]; rfl
    · rw [if_neg hb]; rfl
  · rfl

theorem claim3_counterexample :
    (createFormRoute activeCreateBody "u1" "f1" 0).toOption.map Form.status
      = some "active" ∧ ("active" : String) ≠ "draft" :=
  ⟨rfl, by decide⟩

theorem claim3_amended (existing : Form) (body : UpdateFormBody) (now : Nat)
    (userId newId : String) :
    (body.status ≠ some "active" →
      (putFormRoute existing body now).status = existing.status) ∧
    (preparePreviewRoute existing now).status = existing.status ∧
    (body.status = none →
      ∀ f, createFormRoute body userId newId now = Except.ok f →
        f.status = "draft") := by
  refine ⟨?_, rfl, ?_⟩
  · intro hne
    unfold putFormRoute
    have hb : ¬ (body.status == some "active") = true := by
      intro hcontra
      exact hne (by simpa using hcontra)
    rw [if_neg hb]
    rfl
  · intro h0 f hf
    unfold createFormRoute at hf
    cases hb : body.title with
    | none => rw [hb] at hf; cases hf
    | some t =>
      rw [hb] at hf
      have hfeq := Except.ok.inj hf
      rw [← hfeq]
      simp [h0]

theorem claim3_witness :
    (putFormRoute sampleForm saveBody 3).status = "draft" ∧
    ∀ f, createFormRoute draftCreateBody "u1" "f2" 3 = Except.ok f →
      f.status = "draft" :=
  ⟨((claim3_amended sampleForm saveBody 3 "u1" "f2").1 (by decide)).trans rfl,
   (claim3_amended sampleForm draftCreateBody 3 "u1" "f2").2.2 rfl⟩

theorem bulkGo_noFail_index :
    ∀ (rows : List InsertStudent) (i j : Nat) (db acc : List Student),
      bulkGo (fun _ => false) i db acc rows = bulkGo (fun _ => false) j db acc rows := by
  intro rows
  induction rows with
  | nil => intro i j db acc; rfl
  | cons r rs ih =>
    intro i j db acc
    simp only [bulkGo, if_neg]
    exact ih _ _ _ _

theorem bulkGo_skips (fail : Nat → Bool) :
    ∀ (rows : List InsertStudent) (i : Nat) (db acc : List Student),
      bulkGo fail i db acc rows =
        bulkGo (fun _ => false) i db acc (selectRowsFrom fail i rows) := by
  intro rows
  induction rows with
  | nil => intro i db acc; rfl
  | cons r rs ih =>
    intro i db acc
    by_cases hf : fail i
    · simp only [bulkGo, selectRowsFrom, hf, if_true]
      exact (ih (i + 1) db acc).trans (bulkGo_noFail_index _ _ _ _ _)
    · simp only [bulkGo, selectRowsFrom, hf, if_false]
      exact (ih (i + 1) _ _).trans (bulkGo_noFail_index _ _ _ _ _)

/-- **C5 (amended).**  Row-failure isolation of the bulk commit. -/
theorem claim5_amended (fail : Nat → Bool) (userId : String) (db : List Student)
    (rows : List InsertStudent) (h : rows ≠ []) :
    studentsBulkRoute fail userId db rows =
      Except.ok ((bulkCreateStudents (fun _ => false) db
          (selectRowsFrom fail 0 (rows.map (addCreatedBy userId)))).1,
        ⟨"Successfully imported " ++
            toString (bulkCreateStudents (fun _ => false) db
              (selectRowsFrom fail 0 (rows.map (addCreatedBy userId)))).2.length ++
            " students",
         (bulkCreateStudents (fun _ => false) db
           (selectRowsFrom fail 0 (rows.map (addCreatedBy userId)))).2⟩) := by
  unfold studentsBulkRoute
  have hne : rows.isEmpty = false := by
    cases rows with
    | nil => exact absurd rfl h
    | cons r rs => rfl
  rw [hne]
  simp only [Bool.false_eq_true, if_false]
  unfold bulkCreateStudents
  rw [bulkGo_skips]

theorem claim5_witness :
    studentsBulkRoute (fun i => i == 1) "u1" [] [rowA, rowB] =
      Except.ok ((bulkCreateStudents (fun _ => false) []
          (selectRowsFrom (fun i => i == 1) 0
            ([rowA, rowB].map (addCreatedBy "u1")))).1,
        ⟨"Successfully imported " ++
            toString (bulkCreateStudents (fun _ => false) []
              (selectRowsFrom (fun i => i == 1) 0
                ([rowA, rowB].map (addCreatedBy "u1")))).2.length ++
            " students",
         (bulkCreateStudents (fun _ => false) []
           (selectRowsFrom (fun i => i == 1) 0
             ([rowA, rowB].map (addCreatedBy "u1")))).2⟩) :=
  claim5_amended (fun i => i == 1) "u1" [] [rowA, rowB] (by decide)

/-- **C5 (counterexample).**  A two-row batch whose second row fails
persistence produces exactly the same route response as a one-row batch
with no failures, so the response determines neither the batch total nor a
valid/invalid tally: the commit endpoint does not return
`{total, valid, invalid, committed}` counts. -/
theorem claim5_counterexample :
    studentsBulkRoute (fun i => i == 1) "u1" [] [rowA, rowB] =
      studentsBulkRoute (fun _ => false) "u1" [] [rowA] ∧
    [rowA, rowB].length ≠ [rowA].length :=
  ⟨rfl, by decide⟩

theorem countP_map_replace (p : Student → Bool) (i : Nat) (s' : Student) :
    ∀ (db : List Student), (∀ t ∈ db, (t.id == i) = true → p t = p s') →
      (db.map (fun t => if t.id == i then s' else t)).countP p = db.countP p := by
  intro db
  induction db with
  | nil => intro _; rfl
  | cons t ts ih =>
    intro hp
    simp only [List.map_cons, List.countP_cons]
    rw [ih (fun a ha hid => hp a (List.mem_cons_of_mem _ ha) hid)]
    by_cases hid : (t.id == i) = true
    · rw [if_pos hid, hp t (List.mem_cons_self _ _) hid]
    · rw [if_neg hid]

theorem upsert_count_one {db : List Student} {r : InsertStudent} {bc : String}
    (hbc : r.student_BC = some bc)
    (hnd : (db.map Student.id).Nodup)
    (hcnt : db.countP (fun s => s.student_BC == some bc) ≤ 1) :
    (upsertStudent db db.length r).1.countP (fun s => s.student_BC == some bc)
      = 1 := by
  unfold upsertStudent
  rw [hbc, Option.some_bind]
  cases hfind : getStudentByStudentId db bc with
  | none =>
    have h0 : db.countP (fun s => s.student_BC == some bc) = 0 :=
      List.countP_eq_zero.mpr (List.find?_eq_none.mp hfind)
    show (db ++ [newStudentRecord db.length r]).countP
      (fun s => s.student_BC == some bc) = 1
    simp [List.countP_append, h0, newStudentRecord, hbc]
  | some s1 =>
    show (db.map (fun t => if t.id == s1.id then applyStudentUpdate s1 r else t)).countP
      (fun s => s.student_BC == some bc) = 1
    have hfind2 : db.find? (fun s => s.student_BC == some bc) = some s1 := hfind
    have hps1 : (s1.student_BC == some bc) = true := by
      simpa using List.find?_some hfind2
    have hmem : s1 ∈ db := List.mem_of_find?_eq_some hfind2
    have hrepl := countP_map_replace (fun s => s.student_BC == some bc) s1.id
      (applyStudentUpdate s1 r) db
      (fun t ht hid => by
        have hts : t = s1 :=
          List.inj_on_of_nodup_map hnd ht hmem (eq_of_beq hid)
        simp only [hts]
        show (s1.student_BC == some bc) = ((applyStudentUpdate s1 r).student_BC == some bc)
        rw [hps1]
        simp [applyStudentUpdate, hbc])
    have hpos : 0 < db.countP (fun s => s.student_BC == some bc) :=
      List.countP_pos_iff.mpr ⟨s1, hmem, hps1⟩
    simp only [hrepl]
    omega

theorem upsert_wf {db : List Student} (r : InsertStudent)
    (hwf : StudentDbWF db) : StudentDbWF (upsertStudent db db.length r).1 := by
  obtain ⟨hnd, hlt⟩ := hwf
  unfold upsertStudent
  cases hfind : r.student_BC.bind (getStudentByStudentId db) with
  | some s1 =>
    obtain ⟨bc, hbc, hfind1⟩ := Option.bind_eq_some.mp hfind
    have hfind2 : db.find? (fun s => s.student_BC == some bc) = some s1 := hfind1
    have hmem : s1 ∈ db := List.mem_of_find?_eq_some hfind2
    show StudentDbWF (db.map (fun t => if t.id == s1.id then applyStudentUpdate s1 r else t))
    have hids : (db.map (fun t => if t.id == s1.id then applyStudentUpdate s1 r else t)).map
        Student.id = db.map Student.id := by
      rw [List.map_map]
      apply List.map_congr_left
      intro t ht
      by_cases hid : (t.id == s1.id) = true
      · simp only [Function.comp, hid, if_true]
        show (applyStudentUpdate s1 r).id = t.id
        show s1.id = t.id
        exact (eq_of_beq hid).symm
      · simp only [Function.comp, hid, if_false, Bool.false_eq_true]
    constructor
    · rw [hids]; exact hnd
    · intro s hs
      rw [List.length_map]
      obtain ⟨t, ht, rfl⟩ := List.mem_map.mp hs
      by_cases hid : (t.id == s1.id) = true
      · rw [if_pos hid]
        show s1.id < db.length
        exact hlt s1 hmem
      · rw [if_neg hid]
        exact hlt t ht
  | none =>
    show StudentDbWF (db ++ [newStudentRecord db.length r])
    constructor
    · rw [List.map_append]
      apply List.Nodup.append hnd (by simp)
      intro x hx hy
      simp only [List.map_cons, List.map_nil, List.mem_singleton] at hy
      have hxlt : x < db.length := by
        obtain ⟨t, ht, rfl⟩ := List.mem_map.mp hx
        exact hlt t ht
      have hxeq : x = db.length := by
        rw [hy]; rfl
      omega
    · intro s hs
      rw [List.length_append]
      rcases List.mem_append.mp hs with h1 | h2
      · have := hlt s h1; simp; omega
      · have : s = newStudentRecord db.length r := List.mem_singleton.mp h2
        rw [this]
        show db.length < db.length + 1
        omega

theorem applyStudentUpdate_wins (s1 : Student) (r : InsertStudent) :
    rowValuesWin r (applyStudentUpdate s1 r) := by
  refine ⟨?_, ?_, ?_, ?_, ?_, ?_, ?_, ?_, ?_, ?_, ?_, ?_, ?_, ?_, ?_, ?_⟩ <;>
    intro v hv <;> simp [applyStudentUpdate, hv]

/-- **C4.**  Committing the same valid row twice leaves exactly one stored
record keyed by its `student_BC`, carrying the row's supplied values. -/
theorem upsert_update_branch (d : List Student) (n : Nat) (r : InsertStudent)
    (bc : String) (s2 : Student) (hbc : r.student_BC = some bc)
    (hfind : getStudentByStudentId d bc = some s2) :
    (upsertStudent d n r).1 =
      d.map (fun t => if t.id == s2.id then applyStudentUpdate s2 r else t) := by
  unfold upsertStudent
  rw [hbc, Option.some_bind, hfind]

theorem claim4_bulk_idempotent (db : List Student) (row : InsertStudent) (bc : String)
    (hwf : StudentDbWF db) (hbc : row.student_BC = some bc) (hne : bc ≠ "")
    (hcnt : db.countP (fun s => s.student_BC == some bc) ≤ 1) :
    (bulkCreateStudents (fun _ => false) db [row, row]).1 =
      (bulkCreateStudents (fun _ => false)
        (bulkCreateStudents (fun _ => false) db [row]).1 [row]).1 ∧
    (bulkCreateStudents (fun _ => false)
        (bulkCreateStudents (fun _ => false) db [row]).1 [row]).1.countP
      (fun s => s.student_BC == some bc) = 1 ∧
    ∃ s ∈ (bulkCreateStudents (fun _ => false)
        (bulkCreateStudents (fun _ => false) db [row]).1 [row]).1,
      s.student_BC = some bc ∧ rowValuesWin row s := by
  have hwf1 := upsert_wf row hwf
  have hc1 : (upsertStudent db db.length row).1.countP
      (fun s => s.student_BC == some bc) = 1 :=
    upsert_count_one hbc hwf.1 hcnt
  have hred : (bulkCreateStudents (fun _ => false)
      (bulkCreateStudents (fun _ => false) db [row]).1 [row]).1 =
      (upsertStudent (upsertStudent db db.length row).1
        (upsertStudent db db.length row).1.length row).1 := rfl
  refine ⟨rfl, ?_, ?_⟩
  · rw [hred]
    exact upsert_count_one hbc hwf1.1 (le_of_eq hc1)
  · rw [hred]
    have hex : 0 < (upsertStudent db db.length row).1.countP
        (fun s => s.student_BC == some bc) := by
      rw [hc1]; omega
    obtain ⟨s1, hmem1, hp1⟩ := List.countP_pos_iff.mp hex
    cases hfind : getStudentByStudentId (upsertStudent db db.length row).1 bc with
    | none =>
      exfalso
      have hnone := List.find?_eq_none.mp hfind s1 hmem1
      exact hnone hp1
    | some s2 =>
      have hfind2 : (upsertStudent db db.length row).1.find?
          (fun s => s.student_BC == some bc) = some s2 := hfind
      have hmem2 : s2 ∈ (upsertStudent db db.length row).1 :=
        List.mem_of_find?_eq_some hfind2
      rw [upsert_update_branch _ _ _ bc s2 hbc hfind]
      refine ⟨applyStudentUpdate s2 row, ?_, ?_, applyStudentUpdate_wins s2 row⟩
      · have hin := List.mem_map_of_mem
          (fun t => if t.id == s2.id then applyStudentUpdate s2 row else t) hmem2
        simpa using hin
      · simp [applyStudentUpdate, hbc]

theorem claim4_witness :
    ∃ s ∈ (bulkCreateStudents (fun _ => false)
        (bulkCreateStudents (fun _ => false) [] [rowA]).1 [rowA]).1,
      s.student_BC = some "A1" ∧ rowValuesWin rowA s :=
  (claim4_bulk_idempotent [] rowA "A1"
    ⟨by decide, fun s hs => absurd hs (List.not_mem_nil s)⟩
    rfl (by decide) (by decide)).2.2

theorem classifyBC_counts (db : List Student) (ft : String) (sel : List String) :
    ∀ bcs : List String,
      (classifyBC db ft sel bcs).1.length + (classifyBC db ft sel bcs).2.1.length +
        (classifyBC db ft sel bcs).2.2.length =
      bcs.countP (fun bc => !((jsTrim bc) == "")) := by
  intro bcs
  induction bcs with
  | nil => rfl
  | cons bc rest ih =>
    by_cases hb : (jsTrim bc) = ""
    · simp [classifyBC, hb, ih]
    · have hbb : ((jsTrim bc) == "") = false := by simp [hb]
      cases hfind : getStudentByStudentId db (jsTrim bc) with
      | some student =>
        by_cases hcond : ft = "parents_survey" ∧ 0 < sel.length
        · have hcb : (ft == "parents_survey" && decide (0 < sel.length)) = true := by
            simp [hcond.1, hcond.2]
          by_cases hin : (jsTrim bc) ∈ sel
          · have hinb : sel.contains (jsTrim bc) = true := by simpa using hin
            simp only [classifyBC, List.countP_cons, hbb, Bool.false_eq_true, if_false,
              hfind, hcb, if_true, hinb, List.length_cons, Bool.not_false]
            omega
          · have hinb : sel.contains (jsTrim bc) = false := by simpa using hin
            simp only [classifyBC, List.countP_cons, hbb, Bool.false_eq_true, if_false,
              hfind, hcb, if_true, hinb, List.length_cons, Bool.not_false]
            omega
        · have hcb : (ft == "parents_survey" && decide (0 < sel.length)) = false := by
            rw [Bool.and_eq_false_iff]
            by_cases h1 : ft = "parents_survey"
            · right
              simp only [decide_eq_false_iff_not]
              intro h2
              exact hcond ⟨h1, h2⟩
            · left
              simp [h1]
          simp only [classifyBC, List.countP_cons, hbb, Bool.false_eq_true, if_false,
            hfind, hcb, List.length_cons, Bool.not_false, if_true]
          omega
      | none =>
        simp only [classifyBC, List.countP_cons, hbb, Bool.false_eq_true, if_false,
          hfind, List.length_cons, Bool.not_false, if_true]
        omega

theorem classifyBC_no_restriction (db : List Student) (ft : String)
    (sel : List String)
    (hc : (ft == "parents_survey" && decide (0 < sel.length)) = false) :
    ∀ bcs : List String,
      (classifyBC db ft sel bcs).2.2 = [] ∧
      (classifyBC db ft sel bcs).1 =
        bcs.filterMap (fun bc =>
          if (jsTrim bc) == "" then none
          else (getStudentByStudentId db (jsTrim bc)).map lookupEntryOf) ∧
      (classifyBC db ft sel bcs).2.1 =
        bcs.filterMap (fun bc =>
          if (jsTrim bc) == "" then none
          else
            match getStudentByStudentId db (jsTrim bc) with
            | some _ => none
            | none => some (jsTrim bc)) := by
  intro bcs
  induction bcs with
  | nil => exact ⟨rfl, rfl, rfl⟩
  | cons bc rest ih =>
    obtain ⟨i1, i2, i3⟩ := ih
    by_cases hb : (jsTrim bc) = ""
    · have hbb : ((jsTrim bc) == "") = true := by simp [hb]
      simp only [classifyBC, List.filterMap_cons, hbb, if_true]
      exact ⟨i1, i2, i3⟩
    · have hbb : ((jsTrim bc) == "") = false := by simp [hb]
      cases hfind : getStudentByStudentId db (jsTrim bc) with
      | some student =>
        simp only [classifyBC, List.filterMap_cons, hbb, Bool.false_eq_true, if_false,
          hfind, hc, Option.map_some']
        exact ⟨i1, by rw [i2], i3⟩
      | none =>
        simp only [classifyBC, List.filterMap_cons, hbb, Bool.false_eq_true, if_false,
          hfind, Option.map_none']
        exact ⟨i1, i2, by rw [i3]⟩

theorem classifyBC_restriction (db : List Student) (ft : String)
    (sel : List String)
    (hc : (ft == "parents_survey" && decide (0 < sel.length)) = true) :
    ∀ bcs : List String,
      (classifyBC db ft sel bcs).1 =
        bcs.filterMap (fun bc =>
          if (jsTrim bc) == "" then none
          else
            match getStudentByStudentId db (jsTrim bc) with
            | some s =>
              if sel.contains (jsTrim bc) then some (lookupEntryOf s) else none
            | none => none) ∧
      (classifyBC db ft sel bcs).2.2 =
        bcs.filterMap (fun bc =>
          if (jsTrim bc) == "" then none
          else
            match getStudentByStudentId db (jsTrim bc) with
            | some s =>
              if sel.contains (jsTrim bc) then none else some (lookupEntryOf s)
            | none => none) := by
  intro bcs
  induction bcs with
  | nil => exact ⟨rfl, rfl⟩
  | cons bc rest ih =>
    obtain ⟨i1, i2⟩ := ih
    by_cases hb : (jsTrim bc) = ""
    · have hbb : ((jsTrim bc) == "") = true := by simp [hb]
      simp only [classifyBC, List.filterMap_cons, hbb, if_true]
      exact ⟨i1, i2⟩
    · have hbb : ((jsTrim bc) == "") = false := by simp [hb]
      cases hfind : getStudentByStudentId db (jsTrim bc) with
      | some student =>
        by_cases hin : (jsTrim bc) ∈ sel
        · have hinb : sel.contains (jsTrim bc) = true := by simpa using hin
          simp only [classifyBC, List.filterMap_cons, hbb, Bool.false_eq_true, if_false,
            hfind, hc, hinb, if_true]
          exact ⟨by rw [i1], i2⟩
        · have hinb : sel.contains (jsTrim bc) = false := by simpa using hin
          simp only [classifyBC, List.filterMap_cons, hbb, Bool.false_eq_true, if_false,
            hfind, hc, hinb, if_true]
          exact ⟨i1, by rw [i2]⟩
      | none =>
        simp only [classifyBC, List.filterMap_cons, hbb, Bool.false_eq_true, if_false,
          hfind]
        exact ⟨i1, i2⟩

theorem claim6_lookup_classification (db : List Student) (ft : String)
    (sel : List String) (bcs : List String) :
    ((classifyBC db ft sel bcs).1.length + (classifyBC db ft sel bcs).2.1.length +
      (classifyBC db ft sel bcs).2.2.length =
        bcs.countP (fun bc => !((jsTrim bc) == ""))) ∧
    ((ft ≠ "parents_survey" ∨ sel = []) →
      (classifyBC db ft sel bcs).2.2 = [] ∧
      (classifyBC db ft sel bcs).1 =
        bcs.filterMap (fun bc =>
          if (jsTrim bc) == "" then none
          else (getStudentByStudentId db (jsTrim bc)).map lookupEntryOf) ∧
      (classifyBC db ft sel bcs).2.1 =
        bcs.filterMap (fun bc =>
          if (jsTrim bc) == "" then none
          else
            match getStudentByStudentId db (jsTrim bc) with
            | some _ => none
            | none => some (jsTrim bc))) ∧
    (ft = "parents_survey" → sel ≠ [] →
      (classifyBC db ft sel bcs).1 =
        bcs.filterMap (fun bc =>
          if (jsTrim bc) == "" then none
          else
            match getStudentByStudentId db (jsTrim bc) with
            | some s =>
              if sel.contains (jsTrim bc) then some (lookupEntryOf s) else none
            | none => none) ∧
      (classifyBC db ft sel bcs).2.2 =
        bcs.filterMap (fun bc =>
          if (jsTrim bc) == "" then none
          else
            match getStudentByStudentId db (jsTrim bc) with
            | some s =>
              if sel.contains (jsTrim bc) then none else some (lookupEntryOf s)
            | none => none)) := by
  refine ⟨classifyBC_counts db ft sel bcs, ?_, ?_⟩
  · intro hcase
    have hc : (ft == "parents_survey" && decide (0 < sel.length)) = false := by
      rw [Bool.and_eq_false_iff]
      rcases hcase with h1 | h2
      · left; simpa using h1
      · right; simp [h2]
    exact classifyBC_no_restriction db ft sel hc bcs
  · intro h1 h2
    have hsel : 0 < sel.length := by
      cases hs : sel with
      | nil => exact absurd hs h2
      | cons a as => simp
    have hc : (ft == "parents_survey" && decide (0 < sel.length)) = true := by
      simp [h1, hsel]
    exact classifyBC_restriction db ft sel hc bcs

theorem claim6_witness :
    (classifyBC [newStudentRecord 0 rowA] "general" [] ["A1", " ", "ZZ"]).2.2 = [] ∧
    (classifyBC [newStudentRecord 0 rowA] "general" [] ["A1", " ", "ZZ"]).1 =
      (["A1", " ", "ZZ"] : List String).filterMap (fun bc =>
        if (jsTrim bc) == "" then none
        else (getStudentByStudentId [newStudentRecord 0 rowA] (jsTrim bc)).map
          lookupEntryOf) ∧
    (classifyBC [newStudentRecord 0 rowA] "general" [] ["A1", " ", "ZZ"]).2.1 =
      (["A1", " ", "ZZ"] : List String).filterMap (fun bc =>
        if (jsTrim bc) == "" then none
        else
          match getStudentByStudentId [newStudentRecord 0 rowA] (jsTrim bc) with
          | some _ => none
          | none => some (jsTrim bc)) :=
  (claim6_lookup_classification [newStudentRecord 0 rowA] "general" []
    ["A1", " ", "ZZ"]).2.1 (Or.inr rfl)

/-- **C8.**  Every reserved slug resolves to not-found, whatever forms
exist — even one whose `formUrl` equals the slug. -/
theorem claim8_reserved_slugs (url : String) (forms : List Form)
    (h : url ∈ RESERVED_SLUGS) :
    publicFormRoute forms url = PublicFormResult.notFound := by
  have hlow : RESERVED_SLUGS.contains (jsToLower url) = true := by
    simp only [RESERVED_SLUGS, List.mem_cons, List.not_mem_nil, or_false] at h
    rcases h with rfl | rfl | rfl | rfl | rfl | rfl | rfl | rfl | rfl | rfl | rfl <;>
      decide
  unfold publicFormRoute
  rw [hlow]
  rfl

/-- Witness for C8: the slug `"api"` is denied even though a form with
`formUrl = "api"` exists. -/
theorem claim8_witness :
    "api" ∈ RESERVED_SLUGS ∧
    publicFormRoute [{ sampleForm with formUrl := some "api" }] "api" =
      PublicFormResult.notFound :=
  ⟨by decide,
   claim8_reserved_slugs "api" [{ sampleForm with formUrl := some "api" }]
     (by decide)⟩

/-- **C9 (counterexample).**  On headers `["Bc No","Name"]` and the row
`["A1","Jane"]`, the parsed row's additional-data bag has **no** `"Name"`
key: the `"name"` header is a recognized `fullName` synonym, so `"Jane"`
lands in `fullName` instead. -/
theorem claim9_counterexample :
    (parseDataRows ["Bc No", "Name"] [["A1", "Jane"]]).toOption.map
      (fun rows => rows.map
        (fun p => lookupKey (p.data.additionalData.getD []) "Name")) =
      some [none] ∧
    (parseDataRows ["Bc No", "Name"] [["A1", "Jane"]]).toOption.map
      (fun rows => rows.map (fun p => p.data.fullName)) = some [some "Jane"] := by
  constructor <;> rfl

/-- **C9 (amended).**  Full characterization of the parse on that input:
`student_BC = "A1"`, `fullName = "Jane"` (the `"Name"` header is a
recognized synonym), the additional-data bag holds only the `bcNo` echo of
the identifier, and the row is valid. -/
theorem claim9_amended :
    parseDataRows ["Bc No", "Name"] [["A1", "Jane"]] =
      Except.ok [⟨2,
        { emptyInsertStudent with
          student_BC := some "A1"
          fullName := some "Jane"
          additionalData := some [("bcNo", "A1")] },
        true, []⟩] := by
  rfl

end Iyad
